import Mathlib

/-!
Verification of the procedural layout generator
(`backend/app/services/project_generator.py`).

The Python module is embedded shallowly: machine floats become real
numbers, Python dicts (which preserve insertion order) become ordered
association lists, the `ValueError` raised on an all-invalid sector list
becomes the `Except.error` branch.  Optional model fields
(`description`, `color`, `zone`) are embedded as plain strings because
the generator always populates them.
-/

/-- Mirrors `ModelType` (`app/models/project.py`): a two-variant string enum. -/
inductive ModelType where
  | planning
  | corporate
deriving DecidableEq

/-- The `.value` of the string enum member. -/
def ModelType.value : ModelType → String
  | .planning => "planning"
  | .corporate => "corporate"

/-- One building template of a zone catalog entry. -/
structure BuildingTemplate where
  name : String
  type : String
  color : String
  description : String
deriving DecidableEq

/-- Mirrors `LocationPosition` (`app/models/location.py`). -/
structure LocationPosition where
  x : ℝ
  y : ℝ
  z : ℝ

/-- Mirrors `LocationEmbedded` (`app/models/location.py`). -/
structure LocationEmbedded where
  id : String
  name : String
  type : String
  position : LocationPosition
  description : String
  color : String
  zone : String

/-- Mirrors `RoadEmbedded` (`app/models/road.py`). -/
structure RoadEmbedded where
  id : String
  from_location : String
  to_location : String
  distance : ℝ
  type : String

/-- A catalog maps sector names to ordered template lists; Python dicts
iterate in insertion order, so we keep an ordered association list. -/
abbrev Catalog := List (String × List BuildingTemplate)

/-- `CITY_ZONE_TEMPLATES`, entries in source order. -/
def CITY_ZONE_TEMPLATES : Catalog :=
  [ ("government",
      [ ⟨"City Hall", "Building", "#3b82f6", "The central administrative building of the city."⟩,
        ⟨"Police Headquarters", "Building", "#1d4ed8", "Main police station serving the city."⟩ ]),
    ("healthcare",
      [ ⟨"Central Hospital", "Hospital", "#ef4444", "Major medical facility with emergency and specialist care."⟩,
        ⟨"Medical Center", "Hospital", "#ef4444", "Modern healthcare facility with outpatient services."⟩ ]),
    ("education",
      [ ⟨"Public Library", "Library", "#84cc16", "Main library with extensive collection and study areas."⟩,
        ⟨"High School", "School", "#fb923c", "Public high school with modern facilities."⟩ ]),
    ("commercial",
      [ ⟨"Shopping Mall", "Shop", "#a78bfa", "Large retail complex with diverse stores."⟩,
        ⟨"Office Tower", "Building", "#60a5fa", "Modern office building housing various businesses."⟩ ]),
    ("residential",
      [ ⟨"Apartment Complex", "Building", "#8b5cf6", "Modern residential complex with amenities."⟩,
        ⟨"Hotel District", "Hotel", "#06b6d4", "Upscale hotels and accommodations."⟩ ]),
    ("green",
      [ ⟨"Central Park", "Park", "#4ade80", "Large urban park with recreational facilities."⟩,
        ⟨"Botanical Gardens", "Park", "#4ade80", "Beautiful gardens with diverse plant species."⟩ ]),
    ("transportation",
      [ ⟨"Central Station", "Building", "#64748b", "Main transportation hub connecting the city."⟩,
        ⟨"Bus Terminal", "Building", "#64748b", "Central bus station serving the city."⟩ ]) ]

/-- `CORPORATE_ZONE_TEMPLATES`, entries in source order. -/
def CORPORATE_ZONE_TEMPLATES : Catalog :=
  [ ("admin",
      [ ⟨"Main Office Building", "Building", "#3b82f6", "Corporate headquarters with executive offices."⟩,
        ⟨"HR & Finance Block", "Building", "#1d4ed8", "Administrative offices for HR and Finance departments."⟩ ]),
    ("research",
      [ ⟨"Research Lab A", "Building", "#ef4444", "Advanced research and development facility."⟩,
        ⟨"Innovation Center", "Building", "#ef4444", "Collaborative space for innovation and prototyping."⟩ ]),
    ("conference",
      [ ⟨"Main Conference Hall", "Building", "#84cc16", "Large conference facility for corporate events."⟩,
        ⟨"Training Center", "Building", "#fb923c", "Employee training and development center."⟩ ]),
    ("cafeteria",
      [ ⟨"Main Cafeteria", "Restaurant", "#a78bfa", "Central dining facility for employees."⟩,
        ⟨"Coffee Shop", "Cafe", "#60a5fa", "Casual coffee shop and break area."⟩ ]),
    ("clinic",
      [ ⟨"Medical Center", "Hospital", "#8b5cf6", "On-site medical facility for employees."⟩ ]),
    ("parking",
      [ ⟨"Main Parking Structure", "Building", "#4ade80", "Multi-level employee parking facility."⟩,
        ⟨"Visitor Parking", "Building", "#4ade80", "Dedicated visitor parking area."⟩ ]),
    ("security",
      [ ⟨"Security Command Center", "Building", "#64748b", "Main security operations center."⟩,
        ⟨"Entry Gate Complex", "Building", "#64748b", "Main entrance security checkpoint."⟩ ]) ]

/-- Catalog selection: `CITY_ZONE_TEMPLATES if model_type == ModelType.PLANNING
else CORPORATE_ZONE_TEMPLATES`. -/
def templatesFor (model_type : ModelType) : Catalog :=
  if model_type = ModelType.planning then CITY_ZONE_TEMPLATES else CORPORATE_ZONE_TEMPLATES

/-- `s in templates`: key membership in the selected catalog. -/
def isCatalogKey (templates : Catalog) (s : String) : Bool :=
  (templates.lookup s).isSome

/-- The template list of a sector known to be a catalog key
(`templates[sector]`). -/
def sectorTemplates (templates : Catalog) (s : String) : List BuildingTemplate :=
  (templates.lookup s).getD []

/-- `valid_sectors = [s for s in sectors if s in templates]`. -/
def validSectors (model_type : ModelType) (sectors : List String) : List String :=
  sectors.filter (fun s => isCatalogKey (templatesFor model_type) s)

/-- `calculate_distance`: 3D Euclidean distance. -/
noncomputable def calculate_distance (pos1 pos2 : LocationPosition) : ℝ :=
  let dx := pos2.x - pos1.x
  let dy := pos2.y - pos1.y
  let dz := pos2.z - pos1.z
  Real.sqrt (dx * dx + dy * dy + dz * dz)

/-- Python `round(d, 2)` (the exact tie-breaking of float banker's rounding
is immaterial to every claim; nearest-integer rounding is used). -/
noncomputable def roundTo2 (d : ℝ) : ℝ :=
  ((round (d * 100) : ℤ) : ℝ) / 100

/-- `generate_radial_positions`: zone centers on a circle of `baseRadius`,
with explicit branches for 0 and 1 zones. -/
noncomputable def generate_radial_positions (num_zones : ℕ) (base_radius : ℝ) :
    List (ℝ × ℝ) :=
  if num_zones = 0 then []
  else if num_zones = 1 then [((0 : ℝ), (0 : ℝ))]
  else
    (List.range num_zones).map (fun (i : ℕ) =>
      (base_radius * Real.cos ((i : ℝ) * (2 * Real.pi / (num_zones : ℝ))),
       base_radius * Real.sin ((i : ℝ) * (2 * Real.pi / (num_zones : ℝ)))))

/-- The body of the inner building loop: one placed building.
`total` is `len(buildings)` of the whole zone, `building_idx` the 0-based
ordinal `j`. -/
noncomputable def placeBuilding (sector : String) (center : ℝ × ℝ) (total : ℕ)
    (building_idx : ℕ) (bt : BuildingTemplate) : LocationEmbedded :=
  let offset_angle : ℝ := if 1 < total then (building_idx : ℝ) * (Real.pi / 4) else 0
  let offset_distance : ℝ := if 1 < total then 3 else 0
  { id := sector ++ "_" ++ toString (building_idx + 1)
    name := bt.name
    type := bt.type
    position :=
      { x := center.1 + offset_distance * Real.cos offset_angle
        y := 0
        z := center.2 + offset_distance * Real.sin offset_angle }
    description := bt.description
    color := bt.color
    zone := sector }

/-- `for building_idx, building_template in enumerate(buildings)` with the
running ordinal made explicit. -/
noncomputable def placeBuildings (sector : String) (center : ℝ × ℝ) (total : ℕ) :
    List BuildingTemplate → ℕ → List LocationEmbedded
  | [], _ => []
  | bt :: rest, j => placeBuilding sector center total j bt ::
      placeBuildings sector center total rest (j + 1)

/-- All buildings of one zone. -/
noncomputable def buildZone (sector : String) (center : ℝ × ℝ)
    (buildings : List BuildingTemplate) : List LocationEmbedded :=
  placeBuildings sector center buildings.length buildings 0

/-- `for zone_idx, sector in enumerate(valid_sectors)` with the running zone
index made explicit; `zone_positions[zone_idx]` is in range on every
reachable call. -/
noncomputable def buildZones (templates : Catalog) (zone_positions : List (ℝ × ℝ)) :
    List String → ℕ → List LocationEmbedded
  | [], _ => []
  | s :: rest, zone_idx =>
      buildZone s (zone_positions.getD zone_idx ((0 : ℝ), (0 : ℝ)))
          (sectorTemplates templates s)
        ++ buildZones templates zone_positions rest (zone_idx + 1)

/-- One step of filling the `zone_representatives` dict:
`if loc.zone not in zone_representatives: zone_representatives[loc.zone] = loc`. -/
def repsStep (acc : List (String × LocationEmbedded)) (loc : LocationEmbedded) :
    List (String × LocationEmbedded) :=
  if acc.any (fun p => p.1 == loc.zone) then acc else acc ++ [(loc.zone, loc)]

/-- The `zone_representatives` dict in insertion order. -/
def zoneRepresentatives (locations : List LocationEmbedded) :
    List (String × LocationEmbedded) :=
  locations.foldl repsStep []

/-- One step of filling the `zones_dict` dict: append `loc` to the entry of
its zone, creating the entry at the end on first sight (dict keys stay
pairwise distinct, so the map touches exactly one entry). -/
def zonesDictStep (acc : List (String × List LocationEmbedded))
    (loc : LocationEmbedded) : List (String × List LocationEmbedded) :=
  if acc.any (fun p => p.1 == loc.zone) then
    acc.map (fun p => if p.1 == loc.zone then (p.1, p.2 ++ [loc]) else p)
  else acc ++ [(loc.zone, [loc])]

/-- The `zones_dict` dict in insertion order. -/
def zonesDict (locations : List LocationEmbedded) :
    List (String × List LocationEmbedded) :=
  locations.foldl zonesDictStep []

/-- One emitted main road. -/
noncomputable def mkMainRoad (hub representative : LocationEmbedded) : RoadEmbedded :=
  { id := "r_main_" ++ hub.id ++ "_" ++ representative.id
    from_location := hub.id
    to_location := representative.id
    distance := roundTo2 (calculate_distance hub.position representative.position)
    type := "main" }

/-- One emitted secondary road. -/
noncomputable def mkSecondaryRoad (loc1 loc2 : LocationEmbedded) : RoadEmbedded :=
  { id := "r_sec_" ++ loc1.id ++ "_" ++ loc2.id
    from_location := loc1.id
    to_location := loc2.id
    distance := roundTo2 (calculate_distance loc1.position loc2.position)
    type := "secondary" }

/-- The main-road loop over `zone_representatives.items()`: emit a road for
every representative whose id differs from the hub's. -/
noncomputable def mainRoads (hub : LocationEmbedded)
    (reps : List (String × LocationEmbedded)) : List RoadEmbedded :=
  reps.filterMap (fun p =>
    if p.2.id = hub.id then none else some (mkMainRoad hub p.2))

/-- `for i in range(len(zone_locations) - 1)`: the consecutive pairs of one
zone's location list (the source's `len > 1` guard is subsumed: short lists
yield no pairs). -/
noncomputable def chainRoads (zone_locations : List LocationEmbedded) :
    List RoadEmbedded :=
  (zone_locations.zip zone_locations.tail).map (fun q => mkSecondaryRoad q.1 q.2)

/-- The secondary-road loops over `zones_dict.items()`. -/
noncomputable def secondaryRoads (zd : List (String × List LocationEmbedded)) :
    List RoadEmbedded :=
  zd.flatMap (fun p => chainRoads p.2)

/-- `generate_project_layout`: the `ValueError` becomes `Except.error`. -/
noncomputable def generate_project_layout (model_type : ModelType)
    (sectors : List String) :
    Except String (List LocationEmbedded × List RoadEmbedded) :=
  let templates := templatesFor model_type
  let valid_sectors := sectors.filter (fun s => isCatalogKey templates s)
  if valid_sectors = [] then
    .error ("No valid sectors provided for " ++ model_type.value ++ " model")
  else
    let zone_positions := generate_radial_positions valid_sectors.length 20
    let locations := buildZones templates zone_positions valid_sectors 0
    let roads :=
      match locations with
      | [] => []
      | hub :: _ =>
          mainRoads hub (zoneRepresentatives locations)
            ++ secondaryRoads (zonesDict locations)
    .ok (locations, roads)

/-- The locations of a successful call (`[]` on the error branch). -/
noncomputable def generatedLocations (model_type : ModelType)
    (sectors : List String) : List LocationEmbedded :=
  match generate_project_layout model_type sectors with
  | .ok (locs, _) => locs
  | .error _ => []

/-- The roads of a successful call (`[]` on the error branch). -/
noncomputable def generatedRoads (model_type : ModelType)
    (sectors : List String) : List RoadEmbedded :=
  match generate_project_layout model_type sectors with
  | .ok (_, roads) => roads
  | .error _ => []

/-- The location ids of a successful call, in generation order. -/
noncomputable def generatedIds (model_type : ModelType)
    (sectors : List String) : List String :=
  (generatedLocations model_type sectors).map (fun l => l.id)

/-- The zone fields of a successful call, in generation order. -/
noncomputable def generatedZones (model_type : ModelType)
    (sectors : List String) : List String :=
  (generatedLocations model_type sectors).map (fun l => l.zone)

/-- Whether a call succeeded. -/
noncomputable def generationOk (model_type : ModelType)
    (sectors : List String) : Bool :=
  match generate_project_layout model_type sectors with
  | .ok _ => true
  | .error _ => false

/-- One step of first-appearance collection over a string sequence. -/
def firstAppStep (acc : List String) (z : String) : List String :=
  if acc.contains z then acc else acc ++ [z]

/-- The distinct elements of a string sequence in order of first
appearance (the key order of a Python dict filled along the sequence). -/
def firstApp (l : List String) : List String :=
  l.foldl firstAppStep []

/-- The locations computed on the success path. -/
noncomputable def layoutLocations (model_type : ModelType) (sectors : List String) :
    List LocationEmbedded :=
  buildZones (templatesFor model_type)
    (generate_radial_positions (validSectors model_type sectors).length 20)
    (validSectors model_type sectors) 0

/-- The roads computed on the success path. -/
noncomputable def layoutRoads (model_type : ModelType) (sectors : List String) :
    List RoadEmbedded :=
  match layoutLocations model_type sectors with
  | [] => []
  | hub :: _ =>
      mainRoads hub (zoneRepresentatives (layoutLocations model_type sectors))
        ++ secondaryRoads (zonesDict (layoutLocations model_type sectors))

lemma generate_project_layout_eq (mt : ModelType) (sectors : List String) :
    generate_project_layout mt sectors =
      if validSectors mt sectors = [] then
        .error ("No valid sectors provided for " ++ mt.value ++ " model")
      else .ok (layoutLocations mt sectors, layoutRoads mt sectors) := rfl

lemma gen_ok_of_valid_ne (mt : ModelType) (sectors : List String)
    (h : validSectors mt sectors ≠ []) :
    generate_project_layout mt sectors =
      .ok (layoutLocations mt sectors, layoutRoads mt sectors) := by
  rw [generate_project_layout_eq, if_neg h]

lemma gen_error_iff (mt : ModelType) (sectors : List String) :
    generate_project_layout mt sectors =
        .error ("No valid sectors provided for " ++ mt.value ++ " model")
      ↔ validSectors mt sectors = [] := by
  rw [generate_project_layout_eq]
  constructor
  · intro h
    by_contra hne
    rw [if_neg hne] at h
    exact Except.noConfusion h
  · intro h
    rw [if_pos h]

lemma generatedLocations_eq (mt : ModelType) (sectors : List String)
    (h : validSectors mt sectors ≠ []) :
    generatedLocations mt sectors = layoutLocations mt sectors := by
  unfold generatedLocations
  rw [gen_ok_of_valid_ne mt sectors h]

lemma generatedRoads_eq (mt : ModelType) (sectors : List String)
    (h : validSectors mt sectors ≠ []) :
    generatedRoads mt sectors = layoutRoads mt sectors := by
  unfold generatedRoads
  rw [gen_ok_of_valid_ne mt sectors h]

/-- C1: `generate_project_layout` fails, with the one `InvalidInput` error
carrying the model type, exactly when no requested sector is a key of the
selected catalog; otherwise it returns a `(locations, roads)` pair and no
other error arises. -/
theorem generate_layout_invalid_input_iff (mt : ModelType) (sectors : List String) :
    (generate_project_layout mt sectors =
        .error ("No valid sectors provided for " ++ mt.value ++ " model")
      ↔ validSectors mt sectors = []) ∧
    (validSectors mt sectors ≠ [] →
      ∃ locations roads,
        generate_project_layout mt sectors = .ok (locations, roads)) := by
  refine ⟨gen_error_iff mt sectors, fun h => ?_⟩
  exact ⟨_, _, gen_ok_of_valid_ne mt sectors h⟩

theorem generate_layout_invalid_input_iff_witness :
    (generate_project_layout .planning ["bogus"] =
      .error "No valid sectors provided for planning model") ∧
    (validSectors .planning ["government"] ≠ [] ∧
      ∃ locations roads,
        generate_project_layout .planning ["government"] = .ok (locations, roads)) :=
  ⟨(generate_layout_invalid_input_iff .planning ["bogus"]).1.mpr (by decide),
   by decide,
   (generate_layout_invalid_input_iff .planning ["government"]).2 (by decide)⟩

/-- C6: the radial primitive returns `[]` for zero zones and the single
origin position for one zone, for any base radius. -/
theorem radial_positions_base_cases (r : ℝ) :
    generate_radial_positions 0 r = [] ∧
    generate_radial_positions 1 r = [((0 : ℝ), (0 : ℝ))] := by
  constructor <;> simp [generate_radial_positions]

/-- C9: `calculate_distance` is the 3D Euclidean distance: it satisfies the
`sqrt` formula, vanishes on equal points, is symmetric, and maps
`(0,0,0)`, `(3,4,0)` to exactly `5`. -/
theorem calculate_distance_spec :
    (∀ p1 p2 : LocationPosition, calculate_distance p1 p2 =
      Real.sqrt ((p2.x - p1.x) * (p2.x - p1.x) + (p2.y - p1.y) * (p2.y - p1.y) +
        (p2.z - p1.z) * (p2.z - p1.z))) ∧
    (∀ p : LocationPosition, calculate_distance p p = 0) ∧
    (∀ p1 p2 : LocationPosition,
      calculate_distance p1 p2 = calculate_distance p2 p1) ∧
    calculate_distance ⟨0, 0, 0⟩ ⟨3, 4, 0⟩ = 5 := by
  refine ⟨fun p1 p2 => rfl, fun p => ?_, fun p1 p2 => ?_, ?_⟩
  · simp [calculate_distance]
  · unfold calculate_distance
    ring_nf
  · unfold calculate_distance
    norm_num
    rw [show (25 : ℝ) = 5 ^ 2 by norm_num, Real.sqrt_sq (by norm_num)]

lemma radial_positions_length (n : ℕ) (r : ℝ) (hn : 1 < n) :
    (generate_radial_positions n r).length = n := by
  unfold generate_radial_positions
  rw [if_neg (by omega), if_neg (by omega)]
  simp

lemma radial_positions_getD (n : ℕ) (r : ℝ) (i : ℕ) (hn : 1 < n) (hi : i < n) :
    (generate_radial_positions n r).getD i (0, 0) =
      (r * Real.cos ((i : ℝ) * (2 * Real.pi / (n : ℝ))),
       r * Real.sin ((i : ℝ) * (2 * Real.pi / (n : ℝ)))) := by
  unfold generate_radial_positions
  rw [if_neg (by omega), if_neg (by omega)]
  rw [List.getD_eq_getElem?_getD, List.getElem?_map, List.getElem?_range hi]
  rfl

/-- C7: for `n > 1` the radial primitive returns `n` positions, the `i`-th
being `(r cos(i·2π/n), r sin(i·2π/n))`; hence (for a nonnegative radius)
every center lies at Euclidean distance exactly `r` from the origin, and
consecutive center angles differ by `2π/n`. -/
theorem radial_positions_spec (n : ℕ) (r : ℝ) (i : ℕ)
    (hn : 1 < n) (hi : i < n) (hr : 0 ≤ r) :
    (generate_radial_positions n r).length = n ∧
    (generate_radial_positions n r).getD i (0, 0) =
      (r * Real.cos ((i : ℝ) * (2 * Real.pi / (n : ℝ))),
       r * Real.sin ((i : ℝ) * (2 * Real.pi / (n : ℝ)))) ∧
    calculate_distance ⟨0, 0, 0⟩
      ⟨((generate_radial_positions n r).getD i (0, 0)).1, 0,
        ((generate_radial_positions n r).getD i (0, 0)).2⟩ = r ∧
    ((i : ℝ) + 1) * (2 * Real.pi / (n : ℝ)) - (i : ℝ) * (2 * Real.pi / (n : ℝ))
      = 2 * Real.pi / (n : ℝ) := by
  refine ⟨radial_positions_length n r hn, radial_positions_getD n r i hn hi, ?_, by ring⟩
  rw [radial_positions_getD n r i hn hi]
  unfold calculate_distance
  have key : (r * Real.cos ((i : ℝ) * (2 * Real.pi / (n : ℝ))) - 0) *
        (r * Real.cos ((i : ℝ) * (2 * Real.pi / (n : ℝ))) - 0) +
      (0 - 0) * (0 - 0) +
      (r * Real.sin ((i : ℝ) * (2 * Real.pi / (n : ℝ))) - 0) *
        (r * Real.sin ((i : ℝ) * (2 * Real.pi / (n : ℝ))) - 0) = r ^ 2 := by
    have := Real.sin_sq_add_cos_sq ((i : ℝ) * (2 * Real.pi / (n : ℝ)))
    nlinarith [this]
  simp only []
  rw [key]
  exact Real.sqrt_sq hr

theorem radial_positions_spec_witness :
    1 < 2 ∧ 0 < 2 ∧ (0 : ℝ) ≤ 20 ∧
    ((generate_radial_positions 2 20).length = 2 ∧
      (generate_radial_positions 2 20).getD 0 (0, 0) =
        (20 * Real.cos ((0 : ℕ) * (2 * Real.pi / (2 : ℕ))),
         20 * Real.sin ((0 : ℕ) * (2 * Real.pi / (2 : ℕ)))) ∧
      calculate_distance ⟨0, 0, 0⟩
        ⟨((generate_radial_positions 2 20).getD 0 (0, 0)).1, 0,
          ((generate_radial_positions 2 20).getD 0 (0, 0)).2⟩ = 20 ∧
      ((0 : ℕ) + 1) * (2 * Real.pi / (2 : ℕ)) -
          ((0 : ℕ) : ℝ) * (2 * Real.pi / (2 : ℕ)) = 2 * Real.pi / (2 : ℕ)) :=
  ⟨by norm_num, by norm_num, by norm_num,
   radial_positions_spec 2 20 0 (by norm_num) (by norm_num) (by norm_num)⟩
/-- C5: the validated sector list is exactly the order- and
duplicate-preserving subsequence of the requested names that are catalog
keys; unknown names are dropped silently (no error while one valid name
remains). -/
theorem valid_sectors_filter_spec (mt : ModelType) (sectors : List String) :
    List.Sublist (validSectors mt sectors) sectors ∧
    (∀ s ∈ validSectors mt sectors, isCatalogKey (templatesFor mt) s = true) ∧
    (∀ s, isCatalogKey (templatesFor mt) s = true →
      (validSectors mt sectors).count s = sectors.count s) ∧
    (∀ s, isCatalogKey (templatesFor mt) s = false →
      s ∉ validSectors mt sectors) ∧
    (validSectors mt sectors ≠ [] →
      ∃ pr, generate_project_layout mt sectors = .ok pr) := by
  refine ⟨List.filter_sublist sectors, ?_, ?_, ?_, ?_⟩
  · intro s hs
    exact (List.mem_filter.1 hs).2
  · intro s hs
    exact List.count_filter hs
  · intro s hs hmem
    rw [(List.mem_filter.1 hmem).2] at hs
    exact Bool.noConfusion hs
  · intro h
    exact ⟨_, gen_ok_of_valid_ne mt sectors h⟩

theorem valid_sectors_filter_spec_witness :
    isCatalogKey (templatesFor .planning) "government" = true ∧
    isCatalogKey (templatesFor .planning) "bogus" = false ∧
    validSectors .planning ["government", "bogus", "healthcare"] ≠ [] ∧
    ((validSectors .planning ["government", "bogus", "healthcare"]).count
        "government" = ["government", "bogus", "healthcare"].count "government") ∧
    "bogus" ∉ validSectors .planning ["government", "bogus", "healthcare"] ∧
    (∃ pr, generate_project_layout .planning ["government", "bogus", "healthcare"]
      = .ok pr) :=
  ⟨by decide, by decide, by decide,
   (valid_sectors_filter_spec .planning ["government", "bogus", "healthcare"]).2.2.1
     "government" (by decide),
   (valid_sectors_filter_spec .planning
     ["government", "bogus", "healthcare"]).2.2.2.1 "bogus" (by decide),
   (valid_sectors_filter_spec .planning
     ["government", "bogus", "healthcare"]).2.2.2.2 (by decide)⟩
/-- Default template used only as a `getD` fallback in statements. -/
def defaultTemplate : BuildingTemplate := ⟨"", "", "", ""⟩

/-- Default location used only as a `getD` fallback in statements. -/
def defaultLocation : LocationEmbedded := ⟨"", "", "", ⟨0, 0, 0⟩, "", "", ""⟩

lemma lookup_mem {β : Type} {l : List (String × β)} {s : String} {b : β}
    (h : l.lookup s = some b) : (s, b) ∈ l := by
  obtain ⟨l₁, l₂, rfl, -⟩ := List.lookup_eq_some_iff.1 h
  exact List.mem_append.2 (Or.inr (List.mem_cons_self _ _))

lemma sectorTemplates_lookup {t : Catalog} {s : String}
    (h : isCatalogKey t s = true) : t.lookup s = some (sectorTemplates t s) := by
  unfold isCatalogKey at h
  unfold sectorTemplates
  obtain ⟨bs, hbs⟩ := Option.isSome_iff_exists.1 h
  rw [hbs]
  rfl

lemma placeBuildings_map_id (s : String) (c : ℝ × ℝ) (total : ℕ)
    (bs : List BuildingTemplate) (j0 : ℕ) :
    (placeBuildings s c total bs j0).map (fun l => l.id) =
      (List.range' j0 bs.length).map (fun j => s ++ "_" ++ toString (j + 1)) := by
  induction bs generalizing j0 with
  | nil => rfl
  | cons bt rest ih =>
      simp only [placeBuildings, List.map_cons, List.length_cons, List.range'_succ]
      rw [ih]
      rfl

lemma placeBuildings_map_zone (s : String) (c : ℝ × ℝ) (total : ℕ)
    (bs : List BuildingTemplate) (j0 : ℕ) :
    (placeBuildings s c total bs j0).map (fun l => l.zone) =
      List.replicate bs.length s := by
  induction bs generalizing j0 with
  | nil => rfl
  | cons bt rest ih =>
      simp only [placeBuildings, List.map_cons, List.length_cons, List.replicate_succ]
      rw [ih]
      rfl

lemma placeBuildings_length (s : String) (c : ℝ × ℝ) (total : ℕ)
    (bs : List BuildingTemplate) (j0 : ℕ) :
    (placeBuildings s c total bs j0).length = bs.length := by
  induction bs generalizing j0 with
  | nil => rfl
  | cons bt rest ih => simp [placeBuildings, ih]

lemma placeBuildings_getD (s : String) (c : ℝ × ℝ) (total : ℕ)
    (bs : List BuildingTemplate) (j0 k : ℕ) (hk : k < bs.length) :
    (placeBuildings s c total bs j0).getD k defaultLocation =
      placeBuilding s c total (j0 + k) (bs.getD k defaultTemplate) := by
  induction bs generalizing j0 k with
  | nil => exact absurd hk (by simp)
  | cons bt rest ih =>
      cases k with
      | zero => rfl
      | succ k' =>
          have hk' : k' < rest.length := by simpa using hk
          simp only [placeBuildings, List.getD_cons_succ]
          rw [ih (j0 + 1) k' hk']
          have harith : j0 + 1 + k' = j0 + (k' + 1) := by omega
          rw [harith]

lemma placeBuildings_mem (s : String) (c : ℝ × ℝ) (total : ℕ)
    (bs : List BuildingTemplate) (j0 : ℕ) :
    ∀ loc ∈ placeBuildings s c total bs j0,
      loc.zone = s ∧ ∃ j, j < j0 + bs.length ∧
        loc.id = s ++ "_" ++ toString (j + 1) := by
  induction bs generalizing j0 with
  | nil => intro loc h; exact absurd h (by simp [placeBuildings])
  | cons bt rest ih =>
      intro loc hloc
      rcases List.mem_cons.1 hloc with h | h
      · subst h
        exact ⟨rfl, j0, by simp, rfl⟩
      · obtain ⟨hz, j, hj, hid⟩ := ih (j0 + 1) loc h
        exact ⟨hz, j, by simp only [List.length_cons]; omega, hid⟩

lemma buildZones_map_id (t : Catalog) (zp : List (ℝ × ℝ))
    (valid : List String) (i0 : ℕ) :
    (buildZones t zp valid i0).map (fun l => l.id) =
      valid.flatMap (fun s =>
        (List.range (sectorTemplates t s).length).map
          (fun j => s ++ "_" ++ toString (j + 1))) := by
  induction valid generalizing i0 with
  | nil => rfl
  | cons s rest ih =>
      simp only [buildZones, List.map_append, List.flatMap_cons, buildZone]
      rw [placeBuildings_map_id, ih, List.range_eq_range']

lemma buildZones_map_zone (t : Catalog) (zp : List (ℝ × ℝ))
    (valid : List String) (i0 : ℕ) :
    (buildZones t zp valid i0).map (fun l => l.zone) =
      valid.flatMap (fun s => List.replicate (sectorTemplates t s).length s) := by
  induction valid generalizing i0 with
  | nil => rfl
  | cons s rest ih =>
      simp only [buildZones, List.map_append, List.flatMap_cons, buildZone]
      rw [placeBuildings_map_zone, ih]

/-- Invariant of every generated location: its id is its zone name, an
underscore and a 1-based ordinal bounded by its zone's template count. -/
def IdZoneOk (t : Catalog) (loc : LocationEmbedded) : Prop :=
  ∃ bs, t.lookup loc.zone = some bs ∧
    ∃ j, j < bs.length ∧ loc.id = loc.zone ++ "_" ++ toString (j + 1)

lemma buildZones_mem_idZoneOk (t : Catalog) (zp : List (ℝ × ℝ))
    (valid : List String) (i0 : ℕ)
    (hv : ∀ s ∈ valid, isCatalogKey t s = true) :
    ∀ loc ∈ buildZones t zp valid i0, IdZoneOk t loc := by
  induction valid generalizing i0 with
  | nil => intro loc h; exact absurd h (by simp [buildZones])
  | cons s rest ih =>
      intro loc hloc
      rcases List.mem_append.1 hloc with h | h
      · have hk : isCatalogKey t s = true := hv s (List.mem_cons_self s rest)
        obtain ⟨hz, j, hj, hid⟩ := placeBuildings_mem s _ _ _ 0 loc h
        refine ⟨sectorTemplates t s, ?_, j, ?_, ?_⟩
        · rw [hz]; exact sectorTemplates_lookup hk
        · omega
        · rw [hz]; exact hid
      · exact ih (i0 + 1) (fun s' hs' => hv s' (List.mem_cons_of_mem s hs')) loc h

lemma catalog_id_inj (mt : ModelType) :
    ∀ p ∈ templatesFor mt, ∀ q ∈ templatesFor mt,
      ∀ j, j < p.2.length → ∀ j', j' < q.2.length →
        p.1 ++ "_" ++ toString (j + 1) = q.1 ++ "_" ++ toString (j' + 1) →
        p.1 = q.1 ∧ j = j' := by
  cases mt <;> decide

lemma catalog_values_ne_nil (mt : ModelType) :
    ∀ p ∈ templatesFor mt, p.2 ≠ [] := by
  cases mt <;> decide

lemma idZoneOk_id_inj (mt : ModelType) {l l' : LocationEmbedded}
    (h : IdZoneOk (templatesFor mt) l) (h' : IdZoneOk (templatesFor mt) l')
    (hid : l.id = l'.id) : l.zone = l'.zone := by
  obtain ⟨bs, hbs, j, hj, hidl⟩ := h
  obtain ⟨bs', hbs', j', hj', hidl'⟩ := h'
  exact (catalog_id_inj mt (l.zone, bs) (lookup_mem hbs) (l'.zone, bs')
    (lookup_mem hbs') j hj j' hj' (by rw [← hidl, ← hidl', hid])).1
/-- Number of locations generated before zone `zi` (sum of the template
counts of the earlier validated sectors). -/
def sectorOffset (t : Catalog) (valid : List String) (zi : ℕ) : ℕ :=
  ((valid.take zi).map (fun s => (sectorTemplates t s).length)).sum

lemma buildZones_getD (t : Catalog) (zp : List (ℝ × ℝ))
    (valid : List String) (i0 zi j : ℕ) (hzi : zi < valid.length)
    (hj : j < (sectorTemplates t (valid.getD zi "")).length) :
    (buildZones t zp valid i0).getD (sectorOffset t valid zi + j) defaultLocation
      = placeBuilding (valid.getD zi "") (zp.getD (i0 + zi) (0, 0))
          (sectorTemplates t (valid.getD zi "")).length j
          ((sectorTemplates t (valid.getD zi "")).getD j defaultTemplate) := by
  induction valid generalizing i0 zi with
  | nil => exact absurd hzi (by simp)
  | cons s rest ih =>
      cases zi with
      | zero =>
          have hoff : sectorOffset t (s :: rest) 0 = 0 := by
            simp [sectorOffset]
          rw [hoff, Nat.zero_add]
          have hlen : j < (placeBuildings s (zp.getD i0 (0, 0))
              (sectorTemplates t s).length (sectorTemplates t s) 0).length := by
            rw [placeBuildings_length]
            simpa using hj
          simp only [buildZones, buildZone]
          rw [List.getD_append _ _ _ _ hlen]
          rw [placeBuildings_getD _ _ _ _ _ _ (by simpa using hj)]
          simp
      | succ zi' =>
          have hzi' : zi' < rest.length := by simpa using hzi
          have hoff : sectorOffset t (s :: rest) (zi' + 1) =
              (sectorTemplates t s).length + sectorOffset t rest zi' := by
            simp [sectorOffset, List.take_succ_cons]
          have hblock : (placeBuildings s (zp.getD i0 (0, 0))
              (sectorTemplates t s).length (sectorTemplates t s) 0).length =
              (sectorTemplates t s).length := placeBuildings_length _ _ _ _ _
          simp only [buildZones, buildZone]
          rw [hoff]
          have hge : (placeBuildings s (zp.getD i0 (0, 0))
              (sectorTemplates t s).length (sectorTemplates t s) 0).length ≤
              (sectorTemplates t s).length + sectorOffset t rest zi' + j := by
            rw [hblock]; omega
          rw [List.getD_append_right _ _ _ _ hge, hblock]
          have harith : (sectorTemplates t s).length + sectorOffset t rest zi' + j
              - (sectorTemplates t s).length = sectorOffset t rest zi' + j := by
            omega
          rw [harith]
          have := ih (i0 + 1) zi' hzi' (by simpa using hj)
          rw [show i0 + 1 + zi' = i0 + (zi' + 1) by omega] at this
          simpa using this

/-- C8: the building at 0-based ordinal `j` of validated sector `zi` sits
exactly at the zone center when the sector has a single template, and at
the center offset by distance 3 at angle `j·π/4` otherwise; its y
coordinate is 0, its id is `{sector}_{j+1}`, its zone is the sector name,
and name, category, color and description are copied verbatim from the
catalog template. -/
theorem building_placement_spec (mt : ModelType) (sectors : List String)
    (zi j : ℕ) (hzi : zi < (validSectors mt sectors).length)
    (hj : j < (sectorTemplates (templatesFor mt)
        ((validSectors mt sectors).getD zi "")).length) :
    let s := (validSectors mt sectors).getD zi ""
    let bs := sectorTemplates (templatesFor mt) s
    let c := (generate_radial_positions (validSectors mt sectors).length 20).getD
        zi (0, 0)
    let bt := bs.getD j defaultTemplate
    let loc := (generatedLocations mt sectors).getD
        (sectorOffset (templatesFor mt) (validSectors mt sectors) zi + j)
        defaultLocation
    loc.id = s ++ "_" ++ toString (j + 1) ∧
    loc.zone = s ∧
    loc.name = bt.name ∧ loc.type = bt.type ∧ loc.color = bt.color ∧
    loc.description = bt.description ∧
    loc.position.y = 0 ∧
    (bs.length = 1 → loc.position = ⟨c.1, 0, c.2⟩) ∧
    (1 < bs.length → loc.position =
      ⟨c.1 + 3 * Real.cos ((j : ℝ) * (Real.pi / 4)), 0,
       c.2 + 3 * Real.sin ((j : ℝ) * (Real.pi / 4))⟩) := by
  dsimp only
  have hne : validSectors mt sectors ≠ [] := by
    intro hempty
    rw [hempty] at hzi
    simp at hzi
  rw [generatedLocations_eq mt sectors hne]
  unfold layoutLocations
  rw [buildZones_getD _ _ _ _ _ _ hzi hj, Nat.zero_add]
  unfold placeBuilding
  dsimp only
  refine ⟨rfl, rfl, rfl, rfl, rfl, rfl, rfl, ?_, ?_⟩
  · intro h1
    rw [h1]
    norm_num
  · intro h1
    rw [if_pos h1, if_pos h1]

theorem building_placement_spec_witness :
    0 < (validSectors .corporate ["clinic"]).length ∧
    0 < (sectorTemplates (templatesFor .corporate)
        ((validSectors .corporate ["clinic"]).getD 0 "")).length ∧
    (let s := (validSectors .corporate ["clinic"]).getD 0 ""
     let bs := sectorTemplates (templatesFor .corporate) s
     let c := (generate_radial_positions (validSectors .corporate ["clinic"]).length
         20).getD 0 (0, 0)
     let bt := bs.getD 0 defaultTemplate
     let loc := (generatedLocations .corporate ["clinic"]).getD
         (sectorOffset (templatesFor .corporate) (validSectors .corporate ["clinic"]) 0
           + 0) defaultLocation
     loc.id = s ++ "_" ++ toString (0 + 1) ∧
     loc.zone = s ∧
     loc.name = bt.name ∧ loc.type = bt.type ∧ loc.color = bt.color ∧
     loc.description = bt.description ∧
     loc.position.y = 0 ∧
     (bs.length = 1 → loc.position = ⟨c.1, 0, c.2⟩) ∧
     (1 < bs.length → loc.position =
       ⟨c.1 + 3 * Real.cos (((0 : ℕ) : ℝ) * (Real.pi / 4)), 0,
        c.2 + 3 * Real.sin (((0 : ℕ) : ℝ) * (Real.pi / 4))⟩)) :=
  ⟨by decide, by decide,
   building_placement_spec .corporate ["clinic"] 0 0 (by decide) (by decide)⟩
/-- C2 counterexample: requesting the same valid sector twice makes the
call succeed while producing duplicated location ids, so ids are not
pairwise distinct for every successful call. -/
theorem duplicate_sectors_duplicate_ids :
    generationOk .planning ["government", "government"] = true ∧
    generatedIds .planning ["government", "government"] =
      ["government_1", "government_2", "government_1", "government_2"] ∧
    ¬ (generatedIds .planning ["government", "government"]).Nodup :=
  ⟨by decide, by decide, by decide⟩

lemma generatedIds_formula (mt : ModelType) (sectors : List String) :
    generatedIds mt sectors =
      (validSectors mt sectors).flatMap (fun s =>
        (List.range (sectorTemplates (templatesFor mt) s).length).map
          (fun j => s ++ "_" ++ toString (j + 1))) := by
  by_cases hv : validSectors mt sectors = []
  · unfold generatedIds generatedLocations
    rw [generate_project_layout_eq, if_pos hv, hv]
    rfl
  · unfold generatedIds
    rw [generatedLocations_eq mt sectors hv]
    unfold layoutLocations
    exact buildZones_map_id _ _ _ _

lemma generatedIds_nodup (mt : ModelType) (sectors : List String)
    (h : (validSectors mt sectors).Nodup) :
    (generatedIds mt sectors).Nodup := by
  rw [generatedIds_formula]
  rw [List.nodup_flatMap]
  constructor
  · intro s hs
    have hk : isCatalogKey (templatesFor mt) s = true :=
      (List.mem_filter.1 hs).2
    have hmem := lookup_mem (sectorTemplates_lookup hk)
    refine List.Nodup.map_on ?_ (List.nodup_range _)
    intro x hx y hy hxy
    exact (catalog_id_inj mt (s, sectorTemplates (templatesFor mt) s) hmem
      (s, sectorTemplates (templatesFor mt) s) hmem x (List.mem_range.1 hx)
      y (List.mem_range.1 hy) hxy).2
  · refine List.Pairwise.imp_of_mem ?_ h
    intro a b ha hb hab
    intro x hxa hxb
    obtain ⟨ja, hja, rfl⟩ := List.mem_map.1 hxa
    obtain ⟨jb, hjb, heq⟩ := List.mem_map.1 hxb
    have hka : isCatalogKey (templatesFor mt) a = true := (List.mem_filter.1 ha).2
    have hkb : isCatalogKey (templatesFor mt) b = true := (List.mem_filter.1 hb).2
    exact hab (catalog_id_inj mt (a, sectorTemplates (templatesFor mt) a)
      (lookup_mem (sectorTemplates_lookup hka))
      (b, sectorTemplates (templatesFor mt) b)
      (lookup_mem (sectorTemplates_lookup hkb)) ja (List.mem_range.1 hja)
      jb (List.mem_range.1 hjb) heq.symm).1

/-- C2 (amended): whenever the validated sector list is duplicate-free (in
particular whenever the requested names are pairwise distinct), every
location id is `{sector}_{ordinal}` with the 1-based template ordinal, and
the ids of one call are pairwise distinct. -/
theorem generated_ids_spec (mt : ModelType) (sectors : List String)
    (h : (validSectors mt sectors).Nodup) :
    generatedIds mt sectors =
      (validSectors mt sectors).flatMap (fun s =>
        (List.range (sectorTemplates (templatesFor mt) s).length).map
          (fun j => s ++ "_" ++ toString (j + 1))) ∧
    (generatedIds mt sectors).Nodup :=
  ⟨generatedIds_formula mt sectors, generatedIds_nodup mt sectors h⟩

theorem generated_ids_spec_witness :
    (validSectors .planning ["government", "healthcare"]).Nodup ∧
    (generatedIds .planning ["government", "healthcare"] =
      (validSectors .planning ["government", "healthcare"]).flatMap (fun s =>
        (List.range (sectorTemplates (templatesFor .planning) s).length).map
          (fun j => s ++ "_" ++ toString (j + 1))) ∧
    (generatedIds .planning ["government", "healthcare"]).Nodup) :=
  ⟨by decide, generated_ids_spec .planning ["government", "healthcare"] (by decide)⟩
lemma contains_eq_true_iff {l : List String} {z : String} :
    l.contains z = true ↔ z ∈ l := by
  simp

lemma firstAppStep_mem {acc : List String} {z : String} (h : z ∈ acc) :
    firstAppStep acc z = acc := by
  unfold firstAppStep
  rw [if_pos (contains_eq_true_iff.2 h)]

lemma firstAppStep_not_mem {acc : List String} {z : String} (h : z ∉ acc) :
    firstAppStep acc z = acc ++ [z] := by
  unfold firstAppStep
  rw [if_neg (fun hc => h (contains_eq_true_iff.1 hc))]

lemma firstApp_foldl_mem : ∀ (l acc : List String) (x : String),
    x ∈ l.foldl firstAppStep acc ↔ x ∈ acc ∨ x ∈ l := by
  intro l
  induction l with
  | nil => simp
  | cons z rest ih =>
      intro acc x
      rw [List.foldl_cons, ih]
      by_cases hz : z ∈ acc
      · rw [firstAppStep_mem hz]
        simp only [List.mem_cons]
        constructor
        · rintro (h | h)
          · exact Or.inl h
          · exact Or.inr (Or.inr h)
        · rintro (h | rfl | h)
          · exact Or.inl h
          · exact Or.inl hz
          · exact Or.inr h
      · rw [firstAppStep_not_mem hz]
        simp only [List.mem_append, List.mem_cons, List.mem_singleton]
        tauto

lemma firstApp_mem (l : List String) (x : String) : x ∈ firstApp l ↔ x ∈ l := by
  unfold firstApp
  rw [firstApp_foldl_mem]
  simp

lemma firstApp_foldl_nodup : ∀ (l acc : List String), acc.Nodup →
    (l.foldl firstAppStep acc).Nodup := by
  intro l
  induction l with
  | nil => intro acc h; simpa using h
  | cons z rest ih =>
      intro acc h
      rw [List.foldl_cons]
      refine ih _ ?_
      by_cases hz : z ∈ acc
      · rwa [firstAppStep_mem hz]
      · rw [firstAppStep_not_mem hz]
        simp [List.nodup_append, h, hz]

lemma firstApp_nodup (l : List String) : (firstApp l).Nodup :=
  firstApp_foldl_nodup l [] (by simp)

lemma firstApp_append_elem (l : List String) (z : String) :
    firstApp (l ++ [z]) = if z ∈ l then firstApp l else firstApp l ++ [z] := by
  unfold firstApp
  rw [List.foldl_append, List.foldl_cons, List.foldl_nil]
  by_cases hz : z ∈ l
  · rw [if_pos hz]
    exact firstAppStep_mem ((firstApp_foldl_mem l [] z).2 (Or.inr hz))
  · rw [if_neg hz]
    refine firstAppStep_not_mem ?_
    intro hc
    rcases (firstApp_foldl_mem l [] z).1 hc with h | h
    · exact absurd h (List.not_mem_nil z)
    · exact hz h

lemma firstApp_foldl_acc_prefix : ∀ (l acc : List String),
    ∃ e, l.foldl firstAppStep acc = acc ++ e ∧ ∀ x ∈ e, x ∉ acc := by
  intro l
  induction l with
  | nil => exact fun acc => ⟨[], by simp⟩
  | cons z rest ih =>
      intro acc
      rw [List.foldl_cons]
      by_cases hz : z ∈ acc
      · rw [firstAppStep_mem hz]
        exact ih acc
      · rw [firstAppStep_not_mem hz]
        obtain ⟨e, he, hne⟩ := ih (acc ++ [z])
        refine ⟨z :: e, by simpa [List.append_assoc] using he, ?_⟩
        intro x hx
        rcases List.mem_cons.1 hx with rfl | hx
        · exact hz
        · exact fun hxa => hne x hx (List.mem_append.2 (Or.inl hxa))

lemma firstApp_cons (z : String) (zs : List String) :
    ∃ e, firstApp (z :: zs) = z :: e ∧ z ∉ e := by
  unfold firstApp
  rw [List.foldl_cons]
  rw [firstAppStep_not_mem (List.not_mem_nil z), List.nil_append]
  obtain ⟨e, he, hne⟩ := firstApp_foldl_acc_prefix zs [z]
  exact ⟨e, by simpa using he, fun hz => hne z hz (List.mem_singleton.2 rfl)⟩
/-- The locations of zone `z` in generation order. -/
def zoneLocations (locs : List LocationEmbedded) (z : String) :
    List LocationEmbedded :=
  locs.filter (fun l => l.zone == z)

/-- The first generated location of zone `z` (its representative). -/
def zoneRep (locs : List LocationEmbedded) (z : String) : LocationEmbedded :=
  (zoneLocations locs z).getD 0 defaultLocation

/-- The distinct zones of a location list in order of first appearance. -/
def zoneOrder (locs : List LocationEmbedded) : List String :=
  firstApp (locs.map (fun l => l.zone))

lemma keyed_any_iff {β : Type} (keys : List String) (v : String → β) (z0 : String) :
    ((keys.map (fun z => (z, v z))).any (fun p => p.1 == z0) = true) ↔ z0 ∈ keys := by
  simp

lemma zoneOrder_mem (locs : List LocationEmbedded) (z : String) :
    z ∈ zoneOrder locs ↔ z ∈ locs.map (fun l => l.zone) := by
  unfold zoneOrder
  exact firstApp_mem _ _

lemma zoneOrder_append_elem (pre : List LocationEmbedded) (loc : LocationEmbedded) :
    zoneOrder (pre ++ [loc]) =
      if loc.zone ∈ pre.map (fun l => l.zone) then zoneOrder pre
      else zoneOrder pre ++ [loc.zone] := by
  unfold zoneOrder
  rw [List.map_append]
  exact firstApp_append_elem _ _

lemma zoneLocations_append_elem (pre : List LocationEmbedded)
    (loc : LocationEmbedded) (z : String) :
    zoneLocations (pre ++ [loc]) z =
      zoneLocations pre z ++ if loc.zone == z then [loc] else [] := by
  unfold zoneLocations
  rw [List.filter_append, List.filter_singleton, Bool.cond_eq_if]

lemma zoneLocations_ne_nil_of_mem {pre : List LocationEmbedded} {z : String}
    (h : z ∈ pre.map (fun l => l.zone)) : zoneLocations pre z ≠ [] := by
  obtain ⟨a, ha, rfl⟩ := List.mem_map.1 h
  intro hnil
  have : a ∈ zoneLocations pre a.zone :=
    List.mem_filter.2 ⟨ha, by simp⟩
  rw [hnil] at this
  exact absurd this (List.not_mem_nil a)

lemma zoneLocations_eq_nil_of_not_mem {pre : List LocationEmbedded} {z : String}
    (h : z ∉ pre.map (fun l => l.zone)) : zoneLocations pre z = [] := by
  unfold zoneLocations
  rw [List.filter_eq_nil_iff]
  intro a ha hbeq
  exact h (List.mem_map.2 ⟨a, ha, (beq_iff_eq.1 hbeq)⟩)

lemma zonesDictStep_closed (pre : List LocationEmbedded) (loc : LocationEmbedded) :
    zonesDictStep ((zoneOrder pre).map (fun z => (z, zoneLocations pre z))) loc =
      (zoneOrder (pre ++ [loc])).map
        (fun z => (z, zoneLocations (pre ++ [loc]) z)) := by
  unfold zonesDictStep
  rw [zoneOrder_append_elem]
  by_cases hmem : loc.zone ∈ pre.map (fun l => l.zone)
  · rw [if_pos ((keyed_any_iff _ _ _).2 ((zoneOrder_mem pre loc.zone).2 hmem)),
      if_pos hmem, List.map_map]
    refine List.map_congr_left ?_
    intro z hz
    rw [Function.comp_apply, zoneLocations_append_elem]
    by_cases hzeq : z = loc.zone
    · subst hzeq
      simp
    · have h1 : (z == loc.zone) = false := beq_eq_false_iff_ne.2 hzeq
      have h2 : (loc.zone == z) = false := beq_eq_false_iff_ne.2 (Ne.symm hzeq)
      simp [h1, h2]
  · rw [if_neg (fun hc => hmem ((zoneOrder_mem pre loc.zone).1
        ((keyed_any_iff _ _ _).1 hc))),
      if_neg hmem, List.map_append]
    congr 1
    · refine List.map_congr_left ?_
      intro z hz
      have hzmem : z ∈ pre.map (fun l => l.zone) := (zoneOrder_mem pre z).1 hz
      have hzne : (loc.zone == z) = false :=
        beq_eq_false_iff_ne.2 (fun he => hmem (he ▸ hzmem))
      rw [zoneLocations_append_elem, hzne]
      simp
    · rw [List.map_singleton, zoneLocations_append_elem,
        zoneLocations_eq_nil_of_not_mem hmem]
      simp

lemma repsStep_closed (pre : List LocationEmbedded) (loc : LocationEmbedded) :
    repsStep ((zoneOrder pre).map (fun z => (z, zoneRep pre z))) loc =
      (zoneOrder (pre ++ [loc])).map (fun z => (z, zoneRep (pre ++ [loc]) z)) := by
  unfold repsStep
  rw [zoneOrder_append_elem]
  by_cases hmem : loc.zone ∈ pre.map (fun l => l.zone)
  · rw [if_pos ((keyed_any_iff _ _ _).2 ((zoneOrder_mem pre loc.zone).2 hmem)),
      if_pos hmem]
    refine (List.map_congr_left ?_).symm
    intro z hz
    have hzmem : z ∈ pre.map (fun l => l.zone) := (zoneOrder_mem pre z).1 hz
    have hne : zoneLocations pre z ≠ [] := zoneLocations_ne_nil_of_mem hzmem
    have hlen : 0 < (zoneLocations pre z).length := List.length_pos.2 hne
    unfold zoneRep
    rw [zoneLocations_append_elem, List.getD_append _ _ _ 0 hlen]
  · rw [if_neg (fun hc => hmem ((zoneOrder_mem pre loc.zone).1
        ((keyed_any_iff _ _ _).1 hc))),
      if_neg hmem, List.map_append]
    congr 1
    · refine List.map_congr_left ?_
      intro z hz
      have hzmem : z ∈ pre.map (fun l => l.zone) := (zoneOrder_mem pre z).1 hz
      have hne : zoneLocations pre z ≠ [] := zoneLocations_ne_nil_of_mem hzmem
      have hlen : 0 < (zoneLocations pre z).length := List.length_pos.2 hne
      unfold zoneRep
      rw [zoneLocations_append_elem, List.getD_append _ _ _ 0 hlen]
    · rw [List.map_singleton]
      unfold zoneRep
      rw [zoneLocations_append_elem, zoneLocations_eq_nil_of_not_mem hmem]
      simp

lemma zonesDict_foldl : ∀ (locs pre : List LocationEmbedded),
    locs.foldl zonesDictStep
        ((zoneOrder pre).map (fun z => (z, zoneLocations pre z))) =
      (zoneOrder (pre ++ locs)).map
        (fun z => (z, zoneLocations (pre ++ locs) z)) := by
  intro locs
  induction locs with
  | nil => intro pre; simp
  | cons loc rest ih =>
      intro pre
      rw [List.foldl_cons, zonesDictStep_closed]
      have h := ih (pre ++ [loc])
      rwa [List.append_assoc, List.singleton_append] at h

lemma reps_foldl : ∀ (locs pre : List LocationEmbedded),
    locs.foldl repsStep ((zoneOrder pre).map (fun z => (z, zoneRep pre z))) =
      (zoneOrder (pre ++ locs)).map (fun z => (z, zoneRep (pre ++ locs) z)) := by
  intro locs
  induction locs with
  | nil => intro pre; simp
  | cons loc rest ih =>
      intro pre
      rw [List.foldl_cons, repsStep_closed]
      have h := ih (pre ++ [loc])
      rwa [List.append_assoc, List.singleton_append] at h

lemma zonesDict_closed (locs : List LocationEmbedded) :
    zonesDict locs = (zoneOrder locs).map (fun z => (z, zoneLocations locs z)) := by
  have h := zonesDict_foldl locs []
  simpa [zonesDict] using h

lemma zoneRepresentatives_closed (locs : List LocationEmbedded) :
    zoneRepresentatives locs =
      (zoneOrder locs).map (fun z => (z, zoneRep locs z)) := by
  have h := reps_foldl locs []
  simpa [zoneRepresentatives] using h
lemma filterMap_eq_map_of_forall_some {α β : Type} (g : α → Option β) (h : α → β)
    (l : List α) (H : ∀ a ∈ l, g a = some (h a)) : l.filterMap g = l.map h := by
  induction l with
  | nil => rfl
  | cons a rest ih =>
      rw [List.filterMap_cons, H a (List.mem_cons_self a rest), List.map_cons,
        ih (fun a ha => H a (List.mem_cons_of_mem _ ha))]

lemma zoneRep_mem {locs : List LocationEmbedded} {z : String}
    (h : z ∈ locs.map (fun l => l.zone)) :
    zoneRep locs z ∈ zoneLocations locs z := by
  have hne : zoneLocations locs z ≠ [] := zoneLocations_ne_nil_of_mem h
  have hlen : 0 < (zoneLocations locs z).length := List.length_pos.2 hne
  unfold zoneRep
  rw [List.getD_eq_getElem _ _ hlen]
  exact List.getElem_mem hlen

lemma zoneLocations_mem_zone {locs : List LocationEmbedded} {z : String}
    {l : LocationEmbedded} (h : l ∈ zoneLocations locs z) :
    l ∈ locs ∧ l.zone = z := by
  have h' := List.mem_filter.1 h
  exact ⟨h'.1, beq_iff_eq.1 h'.2⟩

lemma zoneLocations_head (hub : LocationEmbedded) (t : List LocationEmbedded) :
    zoneLocations (hub :: t) hub.zone = hub :: zoneLocations t hub.zone := by
  unfold zoneLocations
  rw [List.filter_cons_of_pos (by simp)]

lemma zoneRep_hub (hub : LocationEmbedded) (t : List LocationEmbedded) :
    zoneRep (hub :: t) hub.zone = hub := by
  unfold zoneRep
  rw [zoneLocations_head]
  rfl

lemma mainRoads_closed (mt : ModelType) (hub : LocationEmbedded)
    (t : List LocationEmbedded)
    (hok : ∀ loc ∈ hub :: t, IdZoneOk (templatesFor mt) loc) :
    mainRoads hub (zoneRepresentatives (hub :: t)) =
      (zoneOrder (hub :: t)).tail.map
        (fun z => mkMainRoad hub (zoneRep (hub :: t) z)) := by
  rw [zoneRepresentatives_closed]
  unfold mainRoads
  rw [List.filterMap_map]
  obtain ⟨e, he, hne⟩ := firstApp_cons hub.zone (t.map (fun l => l.zone))
  have hzo : zoneOrder (hub :: t) = hub.zone :: e := by
    unfold zoneOrder
    rw [List.map_cons]
    exact he
  rw [hzo]
  rw [List.filterMap_cons]
  have hhub : zoneRep (hub :: t) hub.zone = hub := zoneRep_hub hub t
  rw [List.tail_cons]
  have hcond : (((fun p => if p.2.id = hub.id then none
      else some (mkMainRoad hub p.2)) ∘ fun z => (z, zoneRep (hub :: t) z))
        hub.zone) = none := by
    rw [Function.comp_apply, hhub, if_pos rfl]
  rw [hcond]
  refine filterMap_eq_map_of_forall_some _ _ e ?_
  intro z hz
  rw [Function.comp_apply]
  have hzzo : z ∈ zoneOrder (hub :: t) := by
    rw [hzo]
    exact List.mem_cons_of_mem _ hz
  have hzmem : z ∈ (hub :: t).map (fun l => l.zone) := (zoneOrder_mem _ _).1 hzzo
  have hrep := zoneRep_mem hzmem
  obtain ⟨hrl, hrz⟩ := zoneLocations_mem_zone hrep
  have hzne : z ≠ hub.zone := fun hEq => hne (hEq ▸ hz)
  have hidne : (zoneRep (hub :: t) z).id ≠ hub.id := by
    intro hEq
    have := idZoneOk_id_inj mt (hok _ hrl) (hok hub (List.mem_cons_self hub t)) hEq
    rw [hrz] at this
    exact hzne this
  rw [if_neg hidne]

lemma secondaryRoads_closed (locs : List LocationEmbedded) :
    secondaryRoads (zonesDict locs) =
      (zoneOrder locs).flatMap (fun z => chainRoads (zoneLocations locs z)) := by
  rw [zonesDict_closed]
  unfold secondaryRoads
  rw [List.flatMap_map]
lemma generatedLocations_idZoneOk (mt : ModelType) (sectors : List String) :
    ∀ loc ∈ generatedLocations mt sectors, IdZoneOk (templatesFor mt) loc := by
  by_cases hv : validSectors mt sectors = []
  · unfold generatedLocations
    rw [generate_project_layout_eq, if_pos hv]
    intro loc h
    exact absurd h (List.not_mem_nil loc)
  · rw [generatedLocations_eq _ _ hv]
    refine buildZones_mem_idZoneOk _ _ _ _ ?_
    intro s hs
    exact (List.mem_filter.1 hs).2

lemma buildZone_length (s : String) (c : ℝ × ℝ) (bs : List BuildingTemplate) :
    (buildZone s c bs).length = bs.length :=
  placeBuildings_length s c bs.length bs 0

lemma layoutLocations_ne_nil (mt : ModelType) (sectors : List String)
    (h : validSectors mt sectors ≠ []) : layoutLocations mt sectors ≠ [] := by
  obtain ⟨s, rest, hvp⟩ : ∃ s rest, validSectors mt sectors = s :: rest := by
    cases hv : validSectors mt sectors with
    | nil => exact absurd hv h
    | cons a t => exact ⟨a, t, rfl⟩
  have hk : isCatalogKey (templatesFor mt) s = true := by
    have hmem : s ∈ validSectors mt sectors := by
      rw [hvp]
      exact List.mem_cons_self _ _
    exact (List.mem_filter.1 hmem).2
  have hbs : sectorTemplates (templatesFor mt) s ≠ [] :=
    catalog_values_ne_nil mt _ (lookup_mem (sectorTemplates_lookup hk))
  unfold layoutLocations
  rw [hvp]
  simp only [buildZones]
  intro happ
  have h2 := (List.append_eq_nil.1 happ).1
  have h3 := congrArg List.length h2
  rw [buildZone_length] at h3
  exact hbs (List.length_eq_zero.1 h3)

lemma generatedLocations_cons (mt : ModelType) (sectors : List String)
    (h : validSectors mt sectors ≠ []) :
    generatedLocations mt sectors =
      (generatedLocations mt sectors).getD 0 defaultLocation ::
        (generatedLocations mt sectors).tail := by
  rw [generatedLocations_eq _ _ h]
  cases hL : layoutLocations mt sectors with
  | nil => exact absurd hL (layoutLocations_ne_nil mt sectors h)
  | cons a t => rfl

lemma generatedRoads_decomp (mt : ModelType) (sectors : List String)
    (h : validSectors mt sectors ≠ []) :
    generatedRoads mt sectors =
      mainRoads ((generatedLocations mt sectors).getD 0 defaultLocation)
        (zoneRepresentatives (generatedLocations mt sectors))
      ++ secondaryRoads (zonesDict (generatedLocations mt sectors)) := by
  cases hL : layoutLocations mt sectors with
  | nil => exact absurd hL (layoutLocations_ne_nil mt sectors h)
  | cons hub t =>
      rw [generatedRoads_eq _ _ h]
      unfold layoutRoads
      rw [hL, generatedLocations_eq _ _ h, hL]
      rfl

lemma generatedRoads_closed (mt : ModelType) (sectors : List String)
    (h : validSectors mt sectors ≠ []) :
    generatedRoads mt sectors =
      (zoneOrder (generatedLocations mt sectors)).tail.map
        (fun z => mkMainRoad
          ((generatedLocations mt sectors).getD 0 defaultLocation)
          (zoneRep (generatedLocations mt sectors) z))
      ++ (zoneOrder (generatedLocations mt sectors)).flatMap
          (fun z => chainRoads (zoneLocations (generatedLocations mt sectors) z)) := by
  rw [generatedRoads_decomp mt sectors h, secondaryRoads_closed]
  congr 1
  have hcons := generatedLocations_cons mt sectors h
  have hok := generatedLocations_idZoneOk mt sectors
  rw [hcons] at hok ⊢
  exact mainRoads_closed mt _ _ hok
lemma chainRoads_mem {ls : List LocationEmbedded} {r : RoadEmbedded}
    (h : r ∈ chainRoads ls) :
    ∃ a b, (a, b) ∈ ls.zip ls.tail ∧ r = mkSecondaryRoad a b := by
  unfold chainRoads at h
  obtain ⟨⟨a, b⟩, hab, rfl⟩ := List.mem_map.1 h
  exact ⟨a, b, hab, rfl⟩

lemma chainRoads_length (ls : List LocationEmbedded) :
    (chainRoads ls).length = ls.length - 1 := by
  unfold chainRoads
  rw [List.length_map, List.length_zip, List.length_tail]
  omega

/-- C10: the road list of a successful call is all main roads first, then
all secondary roads; main roads follow the order of first appearance of
the zones after the hub's own zone, and secondary roads are grouped by
zone in that same first-appearance order, each group chaining that zone's
locations in generation order. -/
theorem roads_ordering_spec (mt : ModelType) (sectors : List String)
    (h : validSectors mt sectors ≠ []) :
    let locs := generatedLocations mt sectors
    let hub := locs.getD 0 defaultLocation
    let zones := zoneOrder locs
    generatedRoads mt sectors =
      zones.tail.map (fun z => mkMainRoad hub (zoneRep locs z))
        ++ zones.flatMap (fun z => chainRoads (zoneLocations locs z)) ∧
    (∀ r ∈ zones.tail.map (fun z => mkMainRoad hub (zoneRep locs z)),
      r.type = "main") ∧
    (∀ r ∈ zones.flatMap (fun z => chainRoads (zoneLocations locs z)),
      r.type = "secondary") := by
  dsimp only
  refine ⟨generatedRoads_closed mt sectors h, ?_, ?_⟩
  · intro r hr
    obtain ⟨z, hz, rfl⟩ := List.mem_map.1 hr
    rfl
  · intro r hr
    obtain ⟨z, hz, hrc⟩ := List.mem_flatMap.1 hr
    obtain ⟨a, b, hab, rfl⟩ := chainRoads_mem hrc
    rfl

theorem roads_ordering_spec_witness :
    validSectors .planning ["government", "healthcare"] ≠ [] ∧
    (let locs := generatedLocations .planning ["government", "healthcare"]
     let hub := locs.getD 0 defaultLocation
     let zones := zoneOrder locs
     generatedRoads .planning ["government", "healthcare"] =
       zones.tail.map (fun z => mkMainRoad hub (zoneRep locs z))
         ++ zones.flatMap (fun z => chainRoads (zoneLocations locs z)) ∧
     (∀ r ∈ zones.tail.map (fun z => mkMainRoad hub (zoneRep locs z)),
       r.type = "main") ∧
     (∀ r ∈ zones.flatMap (fun z => chainRoads (zoneLocations locs z)),
       r.type = "secondary")) :=
  ⟨by decide, roads_ordering_spec .planning ["government", "healthcare"] (by decide)⟩
lemma generatedRoads_nil (mt : ModelType) (sectors : List String)
    (hv : validSectors mt sectors = []) : generatedRoads mt sectors = [] := by
  unfold generatedRoads
  rw [generate_project_layout_eq, if_pos hv]

lemma generated_hub_mem (mt : ModelType) (sectors : List String)
    (hv : validSectors mt sectors ≠ []) :
    (generatedLocations mt sectors).getD 0 defaultLocation ∈
      generatedLocations mt sectors := by
  rw [generatedLocations_cons mt sectors hv]
  exact List.mem_cons_self _ _

lemma zip_tail_id_ne : ∀ (ls : List LocationEmbedded),
    (ls.map (fun l => l.id)).Nodup →
    ∀ a b, (a, b) ∈ ls.zip ls.tail → a.id ≠ b.id := by
  intro ls
  induction ls with
  | nil => intro _ a b hab; simp at hab
  | cons x rest ih =>
      intro hnd a b hab
      cases rest with
      | nil => simp at hab
      | cons y rest' =>
          rw [List.tail_cons, List.zip_cons_cons] at hab
          rcases List.mem_cons.1 hab with heq | hmem
          · injection heq with h1 h2
            subst h1
            subst h2
            intro hid
            have hx : a.id ∉ (b :: rest').map (fun l => l.id) :=
              (List.nodup_cons.1 (by simpa using hnd)).1
            exact hx (by rw [hid]; exact List.mem_map.2 ⟨b, List.mem_cons_self _ _, rfl⟩)
          · exact ih (List.Nodup.of_cons (by simpa using hnd)) a b
              (by rwa [List.tail_cons])

lemma zoneLocations_ids_nodup {mt : ModelType} {sectors : List String}
    (hnd : (validSectors mt sectors).Nodup) (z : String) :
    ((zoneLocations (generatedLocations mt sectors) z).map
      (fun l => l.id)).Nodup := by
  have hids : ((generatedLocations mt sectors).map (fun l => l.id)).Nodup :=
    generatedIds_nodup mt sectors hnd
  exact hids.sublist ((List.filter_sublist _).map _)

/-- C3 (amended): every road of a successful call references two ids
present in that call's location id set; provided the validated sector list
is duplicate-free (in particular for duplicate-free requests), no road is
a self-loop. -/
theorem road_endpoints_spec (mt : ModelType) (sectors : List String) :
    (∀ r ∈ generatedRoads mt sectors,
      r.from_location ∈ generatedIds mt sectors ∧
      r.to_location ∈ generatedIds mt sectors) ∧
    ((validSectors mt sectors).Nodup →
      ∀ r ∈ generatedRoads mt sectors, r.from_location ≠ r.to_location) := by
  by_cases hv : validSectors mt sectors = []
  · rw [generatedRoads_nil mt sectors hv]
    exact ⟨fun r hr => absurd hr (List.not_mem_nil r),
      fun _ r hr => absurd hr (List.not_mem_nil r)⟩
  · constructor
    · intro r hr
      rw [generatedRoads_closed mt sectors hv] at hr
      rcases List.mem_append.1 hr with hm | hs
      · obtain ⟨z, hz, rfl⟩ := List.mem_map.1 hm
        refine ⟨List.mem_map.2 ⟨_, generated_hub_mem mt sectors hv, rfl⟩,
          List.mem_map.2 ⟨zoneRep (generatedLocations mt sectors) z, ?_, rfl⟩⟩
        have hz' := List.mem_of_mem_tail hz
        have hzm := (zoneOrder_mem _ _).1 hz'
        exact (zoneLocations_mem_zone (zoneRep_mem hzm)).1
      · obtain ⟨z, hz, hrc⟩ := List.mem_flatMap.1 hs
        obtain ⟨a, b, hab, rfl⟩ := chainRoads_mem hrc
        obtain ⟨ha, hb⟩ := List.of_mem_zip hab
        refine ⟨List.mem_map.2 ⟨a, ?_, rfl⟩, List.mem_map.2 ⟨b, ?_, rfl⟩⟩
        · exact (zoneLocations_mem_zone ha).1
        · exact (zoneLocations_mem_zone (List.mem_of_mem_tail hb)).1
    · intro hnd r hr
      rw [generatedRoads_closed mt sectors hv] at hr
      rcases List.mem_append.1 hr with hm | hs
      · obtain ⟨z, hz, rfl⟩ := List.mem_map.1 hm
        have hcons := generatedLocations_cons mt sectors hv
        obtain ⟨e, he, hne⟩ := firstApp_cons
          ((generatedLocations mt sectors).getD 0 defaultLocation).zone
          ((generatedLocations mt sectors).tail.map (fun l => l.zone))
        have hzo : zoneOrder (generatedLocations mt sectors) =
            ((generatedLocations mt sectors).getD 0 defaultLocation).zone :: e := by
          unfold zoneOrder
          conv_lhs => rw [hcons]
          rw [List.map_cons]
          exact he
        rw [hzo, List.tail_cons] at hz
        have hzne : z ≠
            ((generatedLocations mt sectors).getD 0 defaultLocation).zone :=
          fun hEq => hne (hEq ▸ hz)
        have hzm : z ∈ (generatedLocations mt sectors).map (fun l => l.zone) := by
          refine (zoneOrder_mem _ _).1 ?_
          rw [hzo]
          exact List.mem_cons_of_mem _ hz
        obtain ⟨hrl, hrz⟩ := zoneLocations_mem_zone (zoneRep_mem hzm)
        intro hid
        have := idZoneOk_id_inj mt
          (generatedLocations_idZoneOk mt sectors _
            (generated_hub_mem mt sectors hv))
          (generatedLocations_idZoneOk mt sectors _ hrl) hid
        rw [hrz] at this
        exact hzne this.symm
      · obtain ⟨z, hz, hrc⟩ := List.mem_flatMap.1 hs
        obtain ⟨a, b, hab, rfl⟩ := chainRoads_mem hrc
        exact zip_tail_id_ne _ (zoneLocations_ids_nodup hnd z) a b hab

theorem road_endpoints_spec_witness :
    (validSectors .corporate ["admin", "clinic"]).Nodup ∧
    ((∀ r ∈ generatedRoads .corporate ["admin", "clinic"],
      r.from_location ∈ generatedIds .corporate ["admin", "clinic"] ∧
      r.to_location ∈ generatedIds .corporate ["admin", "clinic"]) ∧
    ∀ r ∈ generatedRoads .corporate ["admin", "clinic"],
      r.from_location ≠ r.to_location) :=
  ⟨by decide,
   (road_endpoints_spec .corporate ["admin", "clinic"]).1,
   (road_endpoints_spec .corporate ["admin", "clinic"]).2 (by decide)⟩

/-- C3 counterexample: with a duplicated single-template sector the call
succeeds and emits a secondary road whose two endpoints carry the same id,
a self-loop. -/
theorem duplicate_clinic_self_loop :
    generationOk .corporate ["clinic", "clinic"] = true ∧
    (generatedRoads .corporate ["clinic", "clinic"]).map
      (fun r => (r.from_location, r.to_location)) = [("clinic_1", "clinic_1")] ∧
    (generatedRoads .corporate ["clinic", "clinic"]).any
      (fun r => r.from_location == r.to_location) = true :=
  ⟨by decide, by decide, by decide⟩
lemma countP_flatMap_zero {α β : Type} (p : β → Bool) (f : α → List β)
    (L : List α) (h : ∀ w ∈ L, (f w).countP p = 0) :
    (L.flatMap f).countP p = 0 := by
  induction L with
  | nil => rfl
  | cons w ws ih =>
      rw [List.flatMap_cons, List.countP_append, h w (List.mem_cons_self _ _),
        ih (fun w' hw' => h w' (List.mem_cons_of_mem _ hw'))]

lemma countP_flatMap_single {α β : Type} (p : β → Bool) (f : α → List β)
    (L : List α) (z : α) (hnd : L.Nodup) (hz : z ∈ L)
    (hzero : ∀ w ∈ L, w ≠ z → (f w).countP p = 0) :
    (L.flatMap f).countP p = (f z).countP p := by
  induction L with
  | nil => exact absurd hz (List.not_mem_nil z)
  | cons w ws ih =>
      rw [List.flatMap_cons, List.countP_append]
      rcases List.mem_cons.1 hz with rfl | hzw
      · rw [countP_flatMap_zero p f ws (fun w' hw' =>
          hzero w' (List.mem_cons_of_mem _ hw')
            (fun hEq => (List.nodup_cons.1 hnd).1 (hEq ▸ hw')))]
        omega
      · have hw : w ≠ z := fun hEq => (List.nodup_cons.1 hnd).1 (hEq ▸ hzw)
        rw [hzero w (List.mem_cons_self _ _) hw,
          ih (List.nodup_cons.1 hnd).2 hzw
            (fun w' hw' hne => hzero w' (List.mem_cons_of_mem _ hw') hne)]
        omega

lemma firstApp_length_toFinset (l : List String) :
    (firstApp l).length = l.toFinset.card := by
  rw [← List.toFinset_card_of_nodup (firstApp_nodup l)]
  congr 1
  ext x
  simp only [List.mem_toFinset]
  exact firstApp_mem l x

/-- C4: the number of roads tagged `main` is the number of distinct output
zones minus one, and for each output zone the number of roads tagged
`secondary` with both endpoints in that zone is `max(0, locations in the
zone − 1)` (truncated subtraction on `ℕ`). -/
theorem road_counts_spec (mt : ModelType) (sectors : List String)
    (h : validSectors mt sectors ≠ []) :
    (∀ z, z ∈ zoneOrder (generatedLocations mt sectors) ↔
      z ∈ (generatedLocations mt sectors).map (fun l => l.zone)) ∧
    (generatedRoads mt sectors).countP (fun r => r.type == "main") =
      ((generatedLocations mt sectors).map (fun l => l.zone)).toFinset.card - 1 ∧
    (∀ z ∈ zoneOrder (generatedLocations mt sectors),
      (generatedRoads mt sectors).countP (fun r =>
        r.type == "secondary" &&
        (generatedLocations mt sectors).any
          (fun l => l.id == r.from_location && l.zone == z) &&
        (generatedLocations mt sectors).any
          (fun l => l.id == r.to_location && l.zone == z)) =
      (generatedLocations mt sectors).countP (fun l => l.zone == z) - 1) := by
  refine ⟨fun z => zoneOrder_mem _ z, ?_, ?_⟩
  · rw [generatedRoads_closed mt sectors h, List.countP_append]
    have hmain : ((zoneOrder (generatedLocations mt sectors)).tail.map
        (fun z => mkMainRoad
          ((generatedLocations mt sectors).getD 0 defaultLocation)
          (zoneRep (generatedLocations mt sectors) z))).countP
          (fun r => r.type == "main") =
        ((zoneOrder (generatedLocations mt sectors)).tail.map
          (fun z => mkMainRoad
            ((generatedLocations mt sectors).getD 0 defaultLocation)
            (zoneRep (generatedLocations mt sectors) z))).length :=
      List.countP_eq_length.2 (by
        intro r hr
        obtain ⟨w, hw, rfl⟩ := List.mem_map.1 hr
        rfl)
    have hsec0 : ((zoneOrder (generatedLocations mt sectors)).flatMap
        (fun z => chainRoads
          (zoneLocations (generatedLocations mt sectors) z))).countP
          (fun r => r.type == "main") = 0 := by
      rw [List.countP_eq_zero]
      intro r hr
      obtain ⟨z, hz, hrc⟩ := List.mem_flatMap.1 hr
      obtain ⟨a, b, hab, rfl⟩ := chainRoads_mem hrc
      simp [mkSecondaryRoad]
    rw [hmain, hsec0, List.length_map, List.length_tail]
    unfold zoneOrder
    rw [firstApp_length_toFinset]
    omega
  · intro z hz
    rw [generatedRoads_closed mt sectors h, List.countP_append]
    have hm0 : ((zoneOrder (generatedLocations mt sectors)).tail.map
        (fun w => mkMainRoad
          ((generatedLocations mt sectors).getD 0 defaultLocation)
          (zoneRep (generatedLocations mt sectors) w))).countP
        (fun r => r.type == "secondary" &&
          (generatedLocations mt sectors).any
            (fun l => l.id == r.from_location && l.zone == z) &&
          (generatedLocations mt sectors).any
            (fun l => l.id == r.to_location && l.zone == z)) = 0 := by
      rw [List.countP_eq_zero]
      intro r hr
      obtain ⟨w, hw, rfl⟩ := List.mem_map.1 hr
      intro hcontra
      rw [Bool.and_eq_true, Bool.and_eq_true] at hcontra
      exact absurd hcontra.1.1 (by simp [mkMainRoad])
    have hflat : ((zoneOrder (generatedLocations mt sectors)).flatMap
        (fun w => chainRoads
          (zoneLocations (generatedLocations mt sectors) w))).countP
        (fun r => r.type == "secondary" &&
          (generatedLocations mt sectors).any
            (fun l => l.id == r.from_location && l.zone == z) &&
          (generatedLocations mt sectors).any
            (fun l => l.id == r.to_location && l.zone == z)) =
        (chainRoads (zoneLocations (generatedLocations mt sectors) z)).countP
        (fun r => r.type == "secondary" &&
          (generatedLocations mt sectors).any
            (fun l => l.id == r.from_location && l.zone == z) &&
          (generatedLocations mt sectors).any
            (fun l => l.id == r.to_location && l.zone == z)) := by
      refine countP_flatMap_single _ _ _ z (firstApp_nodup _) hz ?_
      intro w hw hwne
      rw [List.countP_eq_zero]
      intro r hr
      obtain ⟨a, b, hab, rfl⟩ := chainRoads_mem hr
      obtain ⟨ha, hb⟩ := List.of_mem_zip hab
      obtain ⟨haloc, haz⟩ := zoneLocations_mem_zone ha
      intro hcontra
      rw [Bool.and_eq_true, Bool.and_eq_true] at hcontra
      obtain ⟨l, hl, hlp⟩ := List.any_eq_true.1 hcontra.1.2
      rw [Bool.and_eq_true] at hlp
      have hid : l.id = a.id := beq_iff_eq.1 hlp.1
      have hlz : l.zone = z := beq_iff_eq.1 hlp.2
      have hzone := idZoneOk_id_inj mt
        (generatedLocations_idZoneOk mt sectors l hl)
        (generatedLocations_idZoneOk mt sectors a haloc) hid
      exact hwne (by rw [← haz, ← hzone, hlz])
    have hcz : (chainRoads (zoneLocations (generatedLocations mt sectors) z)).countP
        (fun r => r.type == "secondary" &&
          (generatedLocations mt sectors).any
            (fun l => l.id == r.from_location && l.zone == z) &&
          (generatedLocations mt sectors).any
            (fun l => l.id == r.to_location && l.zone == z)) =
        (chainRoads (zoneLocations (generatedLocations mt sectors) z)).length :=
      List.countP_eq_length.2 (by
        intro r hr
        obtain ⟨a, b, hab, rfl⟩ := chainRoads_mem hr
        obtain ⟨ha, hb⟩ := List.of_mem_zip hab
        obtain ⟨haloc, haz⟩ := zoneLocations_mem_zone ha
        obtain ⟨hbloc, hbz⟩ := zoneLocations_mem_zone (List.mem_of_mem_tail hb)
        rw [Bool.and_eq_true, Bool.and_eq_true]
        refine ⟨⟨rfl, ?_⟩, ?_⟩
        · exact List.any_eq_true.2 ⟨a, haloc, by
            rw [Bool.and_eq_true]
            exact ⟨beq_iff_eq.2 rfl, beq_iff_eq.2 haz⟩⟩
        · exact List.any_eq_true.2 ⟨b, hbloc, by
            rw [Bool.and_eq_true]
            exact ⟨beq_iff_eq.2 rfl, beq_iff_eq.2 hbz⟩⟩)
    rw [hm0, hflat, hcz, chainRoads_length, Nat.zero_add,
      List.countP_eq_length_filter]
    rfl

theorem road_counts_spec_witness :
    validSectors .planning ["government", "healthcare"] ≠ [] ∧
    ((∀ z, z ∈ zoneOrder (generatedLocations .planning ["government", "healthcare"]) ↔
      z ∈ (generatedLocations .planning ["government", "healthcare"]).map
        (fun l => l.zone)) ∧
    (generatedRoads .planning ["government", "healthcare"]).countP
        (fun r => r.type == "main") =
      ((generatedLocations .planning ["government", "healthcare"]).map
        (fun l => l.zone)).toFinset.card - 1 ∧
    (∀ z ∈ zoneOrder (generatedLocations .planning ["government", "healthcare"]),
      (generatedRoads .planning ["government", "healthcare"]).countP (fun r =>
        r.type == "secondary" &&
        (generatedLocations .planning ["government", "healthcare"]).any
          (fun l => l.id == r.from_location && l.zone == z) &&
        (generatedLocations .planning ["government", "healthcare"]).any
          (fun l => l.id == r.to_location && l.zone == z)) =
      (generatedLocations .planning ["government", "healthcare"]).countP
        (fun l => l.zone == z) - 1)) :=
  ⟨by decide, road_counts_spec .planning ["government", "healthcare"] (by decide)⟩
